import Mathlib

/-!
# Inventory-reservation saga of the flights service

A shallow embedding of the reservation engine in
`src/apps/flights-svc/src/index.ts`: the tables `flights` and
`flight_reservations`, the three saga endpoints `createReservation`,
`confirmReservation`, `cancelReservation`, and one tick of the expiry
sweeper `startReservationCleanupJob`.

Each endpoint's SQL transaction is modelled as one atomic step on an
explicit database state (`DB`): the `FOR UPDATE` row locks serialize
transactions on the same rows, so a committed history is a sequence of
whole transactions.  `SELECT ... WHERE id = ?` followed by `[0]` is
`List.find?`; `UPDATE ... WHERE id = ?` maps the update over every row
whose key matches, exactly as SQL does.  JavaScript numbers that hold
seat counts are modelled as `Int` (the service performs no sign
validation on `seats`); timestamps are `Int` milliseconds.
-/

/-- The `status` column of `flight_reservations`. -/
inductive ResStatus
  | pending
  | confirmed
  | cancelled
  | expired
deriving DecidableEq

/-- A row of the `flights` table (only the columns the saga touches). -/
structure FlightRow where
  id : Nat
  available_seats : Int
deriving DecidableEq

/-- A row of the `flight_reservations` table. -/
structure ReservationRow where
  id : Nat
  flight_id : Nat
  booking_id : String
  seats : Int
  status : ResStatus
  expires_at : Option Int
deriving DecidableEq

/-- The mutable database state the reservation engine owns. -/
structure DB where
  flights : List FlightRow
  flight_reservations : List ReservationRow
deriving DecidableEq

/-- Outcome of `createReservation`, one constructor per exit path of the
handler (`201`, the `400` bookingId guard, and the two thrown errors that
roll back and surface as `500 RESERVATION_FAILED`). -/
inductive ReserveResult
  | created (reservationId : Nat)
  | badRequest
  | flightNotFound
  | notEnoughSeats
deriving DecidableEq

/-- HTTP status code the handler responds with. -/
def ReserveResult.httpStatus : ReserveResult → Nat
  | .created _ => 201
  | .badRequest => 400
  | .flightNotFound => 500
  | .notEnoughSeats => 500

/-- Outcome of `confirmReservation` (`200` vs rolled-back
`500 CONFIRMATION_FAILED`). -/
inductive ConfirmResult
  | confirmedOk
  | confirmFailed
deriving DecidableEq

/-- HTTP status code the handler responds with. -/
def ConfirmResult.httpStatus : ConfirmResult → Nat
  | .confirmedOk => 200
  | .confirmFailed => 500

/-- Outcome of `cancelReservation`; both exit paths commit and respond
`200`. -/
inductive CancelResult
  | cancelledOk
  | alreadyHandled
deriving DecidableEq

/-- HTTP status code the handler responds with. -/
def CancelResult.httpStatus : CancelResult → Nat
  | .cancelledOk => 200
  | .alreadyHandled => 200

/-- The comparison `expires_at < NOW()` with SQL `NULL` semantics: a `NULL` timestamp
never compares true. -/
def expiredBefore (now : Int) : Option Int → Bool
  | some e => decide (e < now)
  | none => false

/-- The 15-minute hold window in milliseconds
(`15 * 60 * 1000` at line 128 of the service). -/
def holdWindowMs : Int := 15 * 60 * 1000

/-- Reserve, `POST /flights/:id/reservations`: reject a falsy
`bookingId` with `400`; otherwise, in one transaction, lock the flight
row, fail if it is absent or `available_seats < seats`, else decrement
`available_seats` and insert a `pending` reservation expiring at
`now + holdWindowMs`.  The fresh uuid is passed in as `newId`. -/
def createReservation (flightId : Nat) (bookingId : String) (seats : Int)
    (newId : Nat) (now : Int) (db : DB) : DB × ReserveResult :=
  if bookingId = "" then (db, .badRequest)
  else
    match db.flights.find? (fun f => f.id == flightId) with
    | none => (db, .flightNotFound)
    | some flight =>
      if flight.available_seats < seats then (db, .notEnoughSeats)
      else
        ({ flights := db.flights.map (fun f =>
              if f.id == flightId then
                { f with available_seats := f.available_seats - seats }
              else f),
           flight_reservations := db.flight_reservations ++
              [⟨newId, flightId, bookingId, seats, .pending,
                some (now + holdWindowMs)⟩] },
         .created newId)

/-- Confirm, `PATCH /flights/reservations/:reservationId`: select the
row with this id in status `pending` `FOR UPDATE`; if none, throw and
roll back; else set `status = 'confirmed', expires_at = NULL` on every
row with this id.  The flights table is never touched. -/
def confirmReservation (reservationId : Nat) (db : DB) : DB × ConfirmResult :=
  match db.flight_reservations.find? (fun r =>
      r.id == reservationId && r.status == ResStatus.pending) with
  | none => (db, .confirmFailed)
  | some _ =>
    ({ db with flight_reservations := db.flight_reservations.map (fun r =>
        if r.id == reservationId then
          { r with status := .confirmed, expires_at := none }
        else r) },
     .confirmedOk)

/-- Cancel (compensate), `DELETE /flights/reservations/:reservationId`: select the row with this id in status `pending`
`FOR UPDATE`; if none, commit and answer `200` ("already processed");
else set `status = 'cancelled'` (note: `expires_at` is not cleared) and
credit `available_seats` on the reservation's flight. -/
def cancelReservation (reservationId : Nat) (db : DB) : DB × CancelResult :=
  match db.flight_reservations.find? (fun r =>
      r.id == reservationId && r.status == ResStatus.pending) with
  | none => (db, .alreadyHandled)
  | some reservation =>
    ({ flights := db.flights.map (fun f =>
          if f.id == reservation.flight_id then
            { f with available_seats := f.available_seats + reservation.seats }
          else f),
       flight_reservations := db.flight_reservations.map (fun r =>
          if r.id == reservationId then { r with status := .cancelled }
          else r) },
     .cancelledOk)

/-- One loop iteration of the cleanup job: mark the selected row
`expired` (note: `expires_at` is not cleared) and credit its seats back
to its flight. -/
def expireOne (db : DB) (r : ReservationRow) : DB :=
  { flights := db.flights.map (fun f =>
      if f.id == r.flight_id then
        { f with available_seats := f.available_seats + r.seats }
      else f),
    flight_reservations := db.flight_reservations.map (fun x =>
      if x.id == r.id then { x with status := .expired } else x) }

/-- One tick of `startReservationCleanupJob`: in one transaction,
select every reservation with `status = 'pending' AND expires_at <
NOW()` and process each with `expireOne`. -/
def reservationCleanupTick (now : Int) (db : DB) : DB :=
  (db.flight_reservations.filter (fun r =>
      r.status == ResStatus.pending && expiredBefore now r.expires_at)).foldl
    expireOne db

/-- An external call into the engine, or one sweeper tick.  `newId` is
the uuid `createReservation` generates, `now` the wall clock at the
transaction. -/
inductive SagaOp
  | reserve (flightId : Nat) (bookingId : String) (seats : Int)
      (newId : Nat) (now : Int)
  | confirm (reservationId : Nat)
  | cancel (reservationId : Nat)
  | sweep (now : Int)

/-- The state transition of one committed transaction. -/
def applyOp (db : DB) : SagaOp → DB
  | .reserve fid bid s nid now => (createReservation fid bid s nid now db).1
  | .confirm rid => (confirmReservation rid db).1
  | .cancel rid => (cancelReservation rid db).1
  | .sweep now => reservationCleanupTick now db

/-- Run a serialized history of transactions. -/
def runOps (db : DB) (ops : List SagaOp) : DB := ops.foldl applyOp db

/-- Sum of the `seats` of the reservations of flight `fid` whose status
is `pending` or `confirmed`: the capacity those reservations hold. -/
def heldSeats (db : DB) (fid : Nat) : Int :=
  ((db.flight_reservations.filter (fun r =>
      r.flight_id == fid &&
        (r.status == ResStatus.pending || r.status == ResStatus.confirmed))).map
    (fun r => r.seats)).sum

/-- Sum of `available_seats` over the flight rows with id `fid` (the
single row's counter when ids are unique). -/
def availSeats (db : DB) (fid : Nat) : Int :=
  ((db.flights.filter (fun f => f.id == fid)).map
    (fun f => f.available_seats)).sum

/-! ## Generic list arithmetic -/

/-- Summing a projection over a filtered list is summing the projection
gated by the predicate over the whole list. -/
theorem sum_filter_map {α : Type} (p : α → Bool) (v : α → Int) (l : List α) :
    ((l.filter p).map v).sum = (l.map (fun a => if p a then v a else 0)).sum := by
  induction l with
  | nil => rfl
  | cons x l ih =>
    by_cases h : p x = true
    · simp [List.filter_cons, h, ih]
    · simp [List.filter_cons, h, ih]

/-- Gating a gated sum merges the two predicates. -/
theorem sum_filter_map_if {α : Type} (p q : α → Bool) (v : α → Int) (l : List α) :
    ((l.filter p).map (fun a => if q a then v a else 0)).sum =
      ((l.filter (fun a => p a && q a)).map v).sum := by
  rw [sum_filter_map, sum_filter_map]
  apply congrArg
  apply List.map_congr_left
  intro a _
  by_cases hp : p a = true <;> by_cases hq : q a = true <;> simp [hp, hq]

/-- Sums of pointwise differences. -/
theorem sum_map_sub {α : Type} (A B : α → Int) (l : List α) :
    (l.map (fun a => A a - B a)).sum = (l.map A).sum - (l.map B).sum := by
  induction l with
  | nil => simp
  | cons x l ih => simp [ih]; ring

/-- Sums of pointwise sums. -/
theorem sum_map_add {α : Type} (A B : α → Int) (l : List α) :
    (l.map (fun a => A a + B a)).sum = (l.map A).sum + (l.map B).sum := by
  induction l with
  | nil => simp
  | cons x l ih => simp [ih]; ring

/-- A sum gated on a boolean test is the constant times the number of
rows passing the test. -/
theorem sum_map_if_const {α : Type} (t : α → Bool) (c : Int) (l : List α) :
    (l.map (fun a => if t a then c else 0)).sum =
      ((l.filter t).length : Int) * c := by
  induction l with
  | nil => simp
  | cons x l ih =>
    by_cases h : t x = true
    · simp [List.filter_cons, h, ih]
      ring
    · simp [List.filter_cons, h, ih]

/-- Replacing exactly one occurrence: if `a` occurs once in `l` and `F`
and `G` agree away from `a`, the sums differ by `F a - G a`. -/
theorem sum_map_update_single {α : Type} [DecidableEq α] (F G : α → Int)
    (a : α) (l : List α) (hc : l.count a = 1)
    (h : ∀ x ∈ l, x ≠ a → F x = G x) :
    (l.map F).sum = (l.map G).sum + (F a - G a) := by
  induction l with
  | nil => simp at hc
  | cons x l ih =>
    by_cases hx : x = a
    · subst hx
      rw [List.count_cons_self] at hc
      have hnot : x ∉ l := by
        intro hmem
        have hpos : 0 < l.count x := List.count_pos_iff.mpr hmem
        omega
      have heq : l.map F = l.map G := by
        apply List.map_congr_left
        intro y hy
        exact h y (List.mem_cons_of_mem x hy) (fun hya => hnot (hya ▸ hy))
      simp [heq]; ring
    · rw [List.count_cons_of_ne (Ne.symm hx)] at hc
      have hFx : F x = G x := h x (List.mem_cons_self x l) hx
      have := ih hc (fun y hy => h y (List.mem_cons_of_mem x hy))
      simp [hFx, this]; ring

/-- Two members of a list with `Nodup` keys and the same key coincide. -/
theorem eq_of_key_eq {α : Type} (key : α → Nat) (l : List α)
    (hnd : (l.map key).Nodup) {a b : α} (ha : a ∈ l) (hb : b ∈ l)
    (hk : key a = key b) : a = b :=
  List.inj_on_of_nodup_map hnd ha hb hk

/-! ## Characterizing one sweeper tick

`reservationCleanupTick` first materializes the list of expired pending
rows, then folds `expireOne` over it.  The two lemmas below compute the
fold's effect on each table in closed form. -/

/-- The `WHERE status = 'pending' AND expires_at < NOW()` predicate of
the cleanup query. -/
def sweepPred (now : Int) (r : ReservationRow) : Bool :=
  r.status == ResStatus.pending && expiredBefore now r.expires_at

theorem reservationCleanupTick_def (now : Int) (db : DB) :
    reservationCleanupTick now db =
      (db.flight_reservations.filter (sweepPred now)).foldl expireOne db := rfl

/-- Folding `expireOne` marks `expired` exactly the rows whose id occurs
among the processed rows' ids, and touches nothing else in the ledger. -/
theorem foldl_expireOne_reservations (cs : List ReservationRow) (db : DB) :
    (cs.foldl expireOne db).flight_reservations =
      db.flight_reservations.map (fun x =>
        if x.id ∈ cs.map (fun c => c.id) then { x with status := .expired }
        else x) := by
  induction cs generalizing db with
  | nil => simp
  | cons c cs ih =>
    rw [List.foldl_cons, ih]
    show (db.flight_reservations.map fun x =>
        if x.id == c.id then { x with status := ResStatus.expired } else x).map _ = _
    rw [List.map_map]
    apply List.map_congr_left
    intro x _
    by_cases h : x.id = c.id
    · simp [Function.comp, h]
    · simp [Function.comp, h]

/-- Seats credited to flight `fid` by processing the rows `cs`. -/
def creditTo (cs : List ReservationRow) (fid : Nat) : Int :=
  (cs.map (fun c => if c.flight_id == fid then c.seats else 0)).sum

/-- Folding `expireOne` credits every flight row by the total seats of
the processed rows that reference it. -/
theorem foldl_expireOne_flights (cs : List ReservationRow) (db : DB) :
    (cs.foldl expireOne db).flights =
      db.flights.map (fun f =>
        { f with available_seats := f.available_seats + creditTo cs f.id }) := by
  induction cs generalizing db with
  | nil =>
    show db.flights = _
    rw [show (fun f : FlightRow =>
        { f with available_seats := f.available_seats + creditTo [] f.id }) =
        fun f => f from funext fun f => by simp [creditTo]]
    simp
  | cons c cs ih =>
    rw [List.foldl_cons, ih]
    show (db.flights.map fun f =>
        if f.id == c.flight_id then
          { f with available_seats := f.available_seats + c.seats }
        else f).map _ = _
    rw [List.map_map]
    apply List.map_congr_left
    intro f _
    by_cases h : f.id = c.flight_id
    · simp [Function.comp, creditTo, h, beq_iff_eq]
      ring
    · have : ¬ (c.flight_id = f.id) := fun hc => h hc.symm
      simp [Function.comp, creditTo, h, this]

/-! ## The capacity scenario of §8 of the spec -/

/-- Unit U of the spec scenario: one flight with `available_seats = 2`,
no reservations. -/
def scenarioDb0 : DB := ⟨[⟨1, 2⟩], []⟩

/-- Reserve(U, booking A, qty 2). -/
def scenarioStep1 : DB × ReserveResult :=
  createReservation 1 "A" 2 100 0 scenarioDb0

/-- Reserve(U, booking B, qty 1) against the state after step 1. -/
def scenarioStep2 : DB × ReserveResult :=
  createReservation 1 "B" 1 101 1 scenarioStep1.1

/-- Cancel(reservation A). -/
def scenarioStep3 : DB × CancelResult := cancelReservation 100 scenarioStep2.1

/-- Reserve(U, booking B, qty 1) once more. -/
def scenarioStep4 : DB × ReserveResult :=
  createReservation 1 "B" 1 101 2 scenarioStep3.1

/-- C9: on a unit of capacity 2, Reserve(A, qty 2) succeeds leaving
capacity 0; Reserve(B, qty 1) then fails with the insufficient-capacity
error and changes nothing; Cancel(A) succeeds and restores capacity 2;
Reserve(B, qty 1) then succeeds. -/
theorem scenario_reserve_fail_cancel_reserve :
    scenarioStep1.2 = .created 100 ∧ availSeats scenarioStep1.1 1 = 0 ∧
    scenarioStep2 = (scenarioStep1.1, .notEnoughSeats) ∧
    scenarioStep3.2 = .cancelledOk ∧ availSeats scenarioStep3.1 1 = 2 ∧
    scenarioStep4.2 = .created 101 := by
  decide

/-! ## Input validation of Reserve -/

/-- C3 counterexample: a Reserve with the non-positive quantity
`seats = 0` and a well-formed `bookingId` is not rejected: it returns
`201` and inserts a zero-seat pending reservation. -/
theorem reserve_accepts_nonpositive_quantity :
    createReservation 1 "B" 0 10 0 ⟨[⟨1, 5⟩], []⟩ =
      (⟨[⟨1, 5⟩], [⟨10, 1, "B", 0, .pending, some 900000⟩]⟩, .created 10) := by
  decide

/-- C3 amended: the only input validation Reserve performs is the falsy
check on `bookingId`: an empty `bookingId` is rejected with `400` before
the transaction opens and the state is untouched, while any non-empty
`bookingId` passes validation whatever the quantity is. -/
theorem reserve_validates_only_booking_id (db : DB) (fid : Nat) (s : Int)
    (nid : Nat) (now : Int) (bid : String) :
    createReservation fid "" s nid now db = (db, .badRequest) ∧
    (bid ≠ "" → (createReservation fid bid s nid now db).2 ≠ .badRequest) := by
  constructor
  · simp [createReservation]
  · intro h
    unfold createReservation
    rw [if_neg h]
    cases hfind : db.flights.find? (fun f => f.id == fid) with
    | none => simp
    | some flight =>
      by_cases hs : flight.available_seats < s
      · simp [hs]
      · simp [hs]

/-- Witness for `reserve_validates_only_booking_id` at a concrete
input. -/
theorem reserve_validates_only_booking_id_witness :
    createReservation 1 "" 1 10 0 ⟨[], []⟩ = (⟨[], []⟩, .badRequest) ∧
    (createReservation 1 "B" 1 10 0 ⟨[], []⟩).2 ≠ .badRequest := by
  have h := reserve_validates_only_booking_id ⟨[], []⟩ 1 1 10 0 "B"
  exact ⟨h.1, h.2 (by decide)⟩

/-! ## The `expires_at` lifecycle -/

/-- C2 counterexample: Cancel sets `status = 'cancelled'` but does not
clear `expires_at`, so a reservation that has left `pending` can still
carry its expiry timestamp. -/
theorem cancelled_reservation_keeps_expires_at :
    ((cancelReservation 100
        (createReservation 1 "A" 2 100 0 ⟨[⟨1, 5⟩], []⟩).1).1.flight_reservations =
      [⟨100, 1, "A", 2, .cancelled, some 900000⟩]) ∧
    ∃ r ∈ (cancelReservation 100
        (createReservation 1 "A" 2 100 0 ⟨[⟨1, 5⟩], []⟩).1).1.flight_reservations,
      r.status ≠ .pending ∧ r.expires_at ≠ none := by
  decide

/-- C2 amended: `expires_at` is set to `now + holdWindowMs` on
creation and cleared by Confirm; but Cancel and the sweeper leave every
reservation's `expires_at` untouched, so a cancelled or expired
reservation keeps its creation-time expiry value. -/
theorem expires_at_lifecycle (rid : Nat) (t : Int) (fid : Nat)
    (bid : String) (s : Int) (nid : Nat) (now : Int) (db : DB) :
    ((cancelReservation rid db).1.flight_reservations.map (fun r => r.expires_at) =
      db.flight_reservations.map (fun r => r.expires_at)) ∧
    ((reservationCleanupTick t db).flight_reservations.map (fun r => r.expires_at) =
      db.flight_reservations.map (fun r => r.expires_at)) ∧
    ((createReservation fid bid s nid now db).1.flight_reservations =
        db.flight_reservations ∨
      (createReservation fid bid s nid now db).1.flight_reservations =
        db.flight_reservations ++
          [⟨nid, fid, bid, s, .pending, some (now + holdWindowMs)⟩]) ∧
    ((confirmReservation rid db).1.flight_reservations =
        db.flight_reservations ∨
      (confirmReservation rid db).1.flight_reservations =
        db.flight_reservations.map (fun r =>
          if r.id == rid then { r with status := .confirmed, expires_at := none }
          else r)) := by
  refine ⟨?_, ?_, ?_, ?_⟩
  · cases hfind : db.flight_reservations.find? (fun r =>
        r.id == rid && r.status == ResStatus.pending) with
    | none => simp [cancelReservation, hfind]
    | some r0 =>
      simp only [cancelReservation, hfind, List.map_map]
      apply List.map_congr_left
      intro x _
      by_cases h : x.id = rid <;> simp [Function.comp, h]
  · rw [reservationCleanupTick_def, foldl_expireOne_reservations, List.map_map]
    apply List.map_congr_left
    intro x _
    by_cases h : x.id ∈ (db.flight_reservations.filter (sweepPred t)).map
        (fun c => c.id) <;> simp [Function.comp, h]
  · unfold createReservation
    by_cases hbid : bid = ""
    · rw [if_pos hbid]; left; rfl
    · rw [if_neg hbid]
      cases hfind : db.flights.find? (fun f => f.id == fid) with
      | none => left; rfl
      | some flight =>
        by_cases hs : flight.available_seats < s
        · simp [hs]
        · simp [hs]
  · cases hfind : db.flight_reservations.find? (fun r =>
        r.id == rid && r.status == ResStatus.pending) with
    | none => left; simp [confirmReservation, hfind]
    | some r0 => right; simp [confirmReservation, hfind]

/-! ## Cancel is idempotent and credits at most once -/

/-- C5: Cancel always answers `200`; an immediate second Cancel of the
same reservation is a no-op that still answers `200`; and the capacity
credit happens exactly when the call finds the reservation `pending`,
crediting that reservation's seats to its flight once, otherwise the
flights table is untouched. -/
theorem cancel_idempotent (rid : Nat) (db : DB) :
    ((cancelReservation rid db).2.httpStatus = 200) ∧
    (cancelReservation rid (cancelReservation rid db).1 =
      ((cancelReservation rid db).1, .alreadyHandled)) ∧
    ((cancelReservation rid db).1.flights =
      match db.flight_reservations.find? (fun r =>
          r.id == rid && r.status == ResStatus.pending) with
      | none => db.flights
      | some r0 => db.flights.map (fun f =>
          if f.id == r0.flight_id then
            { f with available_seats := f.available_seats + r0.seats }
          else f)) := by
  refine ⟨?_, ?_, ?_⟩
  · cases hfind : db.flight_reservations.find? (fun r =>
        r.id == rid && r.status == ResStatus.pending) <;>
      simp [cancelReservation, hfind, CancelResult.httpStatus]
  · cases hfind : db.flight_reservations.find? (fun r =>
        r.id == rid && r.status == ResStatus.pending) with
    | none =>
      have h1 : cancelReservation rid db = (db, .alreadyHandled) := by
        simp [cancelReservation, hfind]
      rw [h1]
      exact h1
    | some r0 =>
      have hres : (cancelReservation rid db).1.flight_reservations =
          db.flight_reservations.map (fun r =>
            if r.id == rid then { r with status := ResStatus.cancelled }
            else r) := by
        simp [cancelReservation, hfind]
      have hnone : (cancelReservation rid db).1.flight_reservations.find?
          (fun r => r.id == rid && r.status == ResStatus.pending) = none := by
        rw [hres, List.find?_eq_none]
        intro y hy
        rw [List.mem_map] at hy
        obtain ⟨x, _, rfl⟩ := hy
        by_cases h : x.id = rid <;> simp [h]
      generalize (cancelReservation rid db).1 = db' at hnone ⊢
      simp [cancelReservation, hnone]
  · cases hfind : db.flight_reservations.find? (fun r =>
        r.id == rid && r.status == ResStatus.pending) <;>
      simp [cancelReservation, hfind]

/-! ## Confirm is strict -/

/-- C6: a Confirm that finds no `pending` row with the given id — the
reservation is absent, or already confirmed, cancelled or expired —
fails with `500` and leaves the state untouched; in particular a second
Confirm right after any Confirm fails and changes nothing. -/
theorem confirm_strict (rid : Nat) (db : DB) :
    (db.flight_reservations.find? (fun r =>
        r.id == rid && r.status == ResStatus.pending) = none →
      confirmReservation rid db = (db, .confirmFailed)) ∧
    (confirmReservation rid (confirmReservation rid db).1 =
      ((confirmReservation rid db).1, .confirmFailed)) := by
  constructor
  · intro hfind
    simp [confirmReservation, hfind]
  · cases hfind : db.flight_reservations.find? (fun r =>
        r.id == rid && r.status == ResStatus.pending) with
    | none =>
      have h1 : confirmReservation rid db = (db, .confirmFailed) := by
        simp [confirmReservation, hfind]
      rw [h1]
      exact h1
    | some r0 =>
      have hres : (confirmReservation rid db).1.flight_reservations =
          db.flight_reservations.map (fun r =>
            if r.id == rid then
              { r with status := ResStatus.confirmed, expires_at := none }
            else r) := by
        simp [confirmReservation, hfind]
      have hnone : (confirmReservation rid db).1.flight_reservations.find?
          (fun r => r.id == rid && r.status == ResStatus.pending) = none := by
        rw [hres, List.find?_eq_none]
        intro y hy
        rw [List.mem_map] at hy
        obtain ⟨x, _, rfl⟩ := hy
        by_cases h : x.id = rid <;> simp [h]
      generalize (confirmReservation rid db).1 = db' at hnone ⊢
      simp [confirmReservation, hnone]

/-- Witness for `confirm_strict` at a concrete input: confirming in an
empty ledger fails and changes nothing, twice. -/
theorem confirm_strict_witness :
    confirmReservation 5 ⟨[], []⟩ = (⟨[], []⟩, .confirmFailed) ∧
    confirmReservation 5 (confirmReservation 5 ⟨[], []⟩).1 =
      ((confirmReservation 5 ⟨[], []⟩).1, .confirmFailed) := by
  have h := confirm_strict 5 ⟨[], []⟩
  exact ⟨h.1 (by decide), h.2⟩

/-! ## Confirm's frame -/

/-- C8: a Confirm never touches the flights table — the capacity
deducted at Reserve time stays deducted — and rewrites only the rows
carrying the target id, changing nothing but their `status` and
`expires_at` fields; on failure the ledger is untouched. -/
theorem confirm_frame (rid : Nat) (db : DB) :
    ((confirmReservation rid db).1.flights = db.flights) ∧
    ((confirmReservation rid db).1.flight_reservations =
      match db.flight_reservations.find? (fun r =>
          r.id == rid && r.status == ResStatus.pending) with
      | none => db.flight_reservations
      | some _ => db.flight_reservations.map (fun r =>
          if r.id == rid then
            { r with status := .confirmed, expires_at := none }
          else r)) := by
  cases hfind : db.flight_reservations.find? (fun r =>
      r.id == rid && r.status == ResStatus.pending) <;>
    simp [confirmReservation, hfind]

/-! ## One sweeper pass, exactly -/

/-- With `Nodup` ledger ids, a row's id occurs among the sweep
candidates' ids iff that very row matches the cleanup query. -/
theorem mem_candIds_iff (now : Int) (db : DB)
    (hnd : (db.flight_reservations.map (fun r => r.id)).Nodup)
    {x : ReservationRow} (hx : x ∈ db.flight_reservations) :
    (x.id ∈ (db.flight_reservations.filter (sweepPred now)).map
        (fun c => c.id)) ↔ sweepPred now x = true := by
  constructor
  · intro h
    rw [List.mem_map] at h
    obtain ⟨c, hc, hcid⟩ := h
    rw [List.mem_filter] at hc
    have hcx : c = x :=
      eq_of_key_eq (fun r => r.id) db.flight_reservations hnd hc.1 hx hcid
    exact hcx ▸ hc.2
  · intro h
    exact List.mem_map.mpr ⟨x, List.mem_filter.mpr ⟨hx, h⟩, rfl⟩

/-- C7: one cleanup pass at time `now` sets `status = 'expired'` on
exactly the reservations that are `pending` with `expires_at < now`,
leaving every other reservation — in particular every pending one whose
expiry is at or after `now` — completely unchanged, and credits each
flight's `available_seats` once with the total seats of its newly
expired reservations. -/
theorem sweep_one_pass (now : Int) (db : DB)
    (hnd : (db.flight_reservations.map (fun r => r.id)).Nodup) :
    ((reservationCleanupTick now db).flight_reservations =
      db.flight_reservations.map (fun r =>
        if sweepPred now r then { r with status := .expired } else r)) ∧
    ((reservationCleanupTick now db).flights =
      db.flights.map (fun f =>
        { f with available_seats := f.available_seats +
            ((db.flight_reservations.filter (fun r =>
                sweepPred now r && r.flight_id == f.id)).map
              (fun r => r.seats)).sum })) := by
  constructor
  · rw [reservationCleanupTick_def, foldl_expireOne_reservations]
    apply List.map_congr_left
    intro x hx
    by_cases h : sweepPred now x = true
    · rw [if_pos ((mem_candIds_iff now db hnd hx).mpr h), if_pos h]
    · rw [if_neg (fun hmem => h ((mem_candIds_iff now db hnd hx).mp hmem)),
        if_neg h]
  · rw [reservationCleanupTick_def, foldl_expireOne_flights]
    apply List.map_congr_left
    intro f _
    have hsum : creditTo (db.flight_reservations.filter (sweepPred now)) f.id =
        ((db.flight_reservations.filter (fun r =>
            sweepPred now r && r.flight_id == f.id)).map
          (fun r => r.seats)).sum := by
      unfold creditTo
      exact sum_filter_map_if (sweepPred now) (fun r => r.flight_id == f.id)
        (fun r => r.seats) db.flight_reservations
    rw [hsum]

/-- Concrete instance backing `sweep_one_pass`. -/
def sweepDbA : DB :=
  ⟨[⟨1, 0⟩], [⟨5, 1, "A", 2, .pending, some 10⟩,
              ⟨6, 1, "B", 1, .pending, some 30⟩]⟩

/-- Witness for `sweep_one_pass`: at time 20, the reservation expiring
at 10 is swept and credited, the one expiring at 30 is untouched. -/
theorem sweep_one_pass_witness :
    ((reservationCleanupTick 20 sweepDbA).flight_reservations =
      sweepDbA.flight_reservations.map (fun r =>
        if sweepPred 20 r then { r with status := .expired } else r)) ∧
    ((reservationCleanupTick 20 sweepDbA).flights =
      sweepDbA.flights.map (fun f =>
        { f with available_seats := f.available_seats +
            ((sweepDbA.flight_reservations.filter (fun r =>
                sweepPred 20 r && r.flight_id == f.id)).map
              (fun r => r.seats)).sum })) :=
  sweep_one_pass 20 sweepDbA (by decide)

/-- C4: a reservation that already left `pending` (confirmed or
cancelled) is silently skipped by a sweep pass: the identical row — its
status included — survives the pass, and the pass credits flights only
from rows satisfying the `status = 'pending'` query, never from this
one. -/
theorem sweep_skips_settled (now : Int) (db : DB) (r : ReservationRow)
    (hnd : (db.flight_reservations.map (fun x => x.id)).Nodup)
    (hr : r ∈ db.flight_reservations)
    (hs : r.status = .confirmed ∨ r.status = .cancelled) :
    r ∈ (reservationCleanupTick now db).flight_reservations ∧
    ((reservationCleanupTick now db).flights =
      db.flights.map (fun f =>
        { f with available_seats := f.available_seats +
            ((db.flight_reservations.filter (fun x =>
                sweepPred now x && x.flight_id == f.id)).map
              (fun x => x.seats)).sum })) := by
  constructor
  · rw [reservationCleanupTick_def, foldl_expireOne_reservations]
    have hnotmem : r.id ∉ (db.flight_reservations.filter (sweepPred now)).map
        (fun c => c.id) := by
      intro hmem
      have hp := (mem_candIds_iff now db hnd hr).mp hmem
      rcases hs with h | h <;> simp [sweepPred, h] at hp
    exact List.mem_map.mpr ⟨r, hr, if_neg hnotmem⟩
  · rw [reservationCleanupTick_def, foldl_expireOne_flights]
    apply List.map_congr_left
    intro f _
    have hsum : creditTo (db.flight_reservations.filter (sweepPred now)) f.id =
        ((db.flight_reservations.filter (fun x =>
            sweepPred now x && x.flight_id == f.id)).map
          (fun x => x.seats)).sum := by
      unfold creditTo
      exact sum_filter_map_if (sweepPred now) (fun x => x.flight_id == f.id)
        (fun x => x.seats) db.flight_reservations
    rw [hsum]

/-- Concrete instance backing `sweep_skips_settled`. -/
def sweepDbB : DB :=
  ⟨[⟨1, 0⟩], [⟨5, 1, "A", 2, .pending, some 10⟩,
              ⟨6, 1, "B", 1, .confirmed, some 3⟩]⟩

/-- Witness for `sweep_skips_settled`: the confirmed reservation with
the long-past expiry survives the pass untouched. -/
theorem sweep_skips_settled_witness :
    (⟨6, 1, "B", 1, .confirmed, some 3⟩ : ReservationRow) ∈
      (reservationCleanupTick 20 sweepDbB).flight_reservations ∧
    ((reservationCleanupTick 20 sweepDbB).flights =
      sweepDbB.flights.map (fun f =>
        { f with available_seats := f.available_seats +
            ((sweepDbB.flight_reservations.filter (fun x =>
                sweepPred 20 x && x.flight_id == f.id)).map
              (fun x => x.seats)).sum })) :=
  sweep_skips_settled 20 sweepDbB ⟨6, 1, "B", 1, .confirmed, some 3⟩
    (by decide) (by decide) (Or.inl rfl)

/-- C10: the sweep is idempotent — a second pass at the same clock time
finds no matching row and leaves the state exactly as the first pass
left it. -/
theorem sweep_idempotent (now : Int) (db : DB) :
    reservationCleanupTick now (reservationCleanupTick now db) =
      reservationCleanupTick now db := by
  have hnil : (reservationCleanupTick now db).flight_reservations.filter
      (sweepPred now) = [] := by
    rw [List.filter_eq_nil_iff]
    intro y hy
    rw [reservationCleanupTick_def, foldl_expireOne_reservations] at hy
    rw [List.mem_map] at hy
    obtain ⟨x, hx, rfl⟩ := hy
    by_cases h : x.id ∈ (db.flight_reservations.filter (sweepPred now)).map
        (fun c => c.id)
    · rw [if_pos h]
      simp [sweepPred]
    · rw [if_neg h]
      intro hpx
      exact h (List.mem_map.mpr ⟨x, List.mem_filter.mpr ⟨hx, hpx⟩, rfl⟩)
  show ((reservationCleanupTick now db).flight_reservations.filter
      (sweepPred now)).foldl expireOne (reservationCleanupTick now db) = _
  rw [hnil]
  rfl

/-! ## The no-oversell invariant: sum bookkeeping -/

/-- Contribution of one ledger row to `heldSeats db fid`. -/
def heldContrib (fid : Nat) (r : ReservationRow) : Int :=
  if r.flight_id == fid &&
      (r.status == ResStatus.pending || r.status == ResStatus.confirmed) then
    r.seats
  else 0

theorem heldSeats_eq_sum (db : DB) (fid : Nat) :
    heldSeats db fid = (db.flight_reservations.map (heldContrib fid)).sum := by
  unfold heldSeats heldContrib
  exact sum_filter_map _ _ _

/-- Contribution of one flight row to `availSeats db fid`. -/
def availContrib (fid : Nat) (f : FlightRow) : Int :=
  if f.id == fid then f.available_seats else 0

theorem availSeats_eq_sum (db : DB) (fid : Nat) :
    availSeats db fid = (db.flights.map (availContrib fid)).sum := by
  unfold availSeats availContrib
  exact sum_filter_map _ _ _

/-- With unique keys, filtering a list for one member's key keeps
exactly that member. -/
theorem filter_key_singleton {α : Type} (key : α → Nat) :
    ∀ (l : List α), ((l.map key).Nodup) → ∀ {a : α}, a ∈ l →
      l.filter (fun x => key x == key a) = [a] := by
  intro l
  induction l with
  | nil => intro _ a ha; cases ha
  | cons x t ih =>
    intro hnd a ha
    rw [List.map_cons, List.nodup_cons] at hnd
    rcases List.mem_cons.mp ha with rfl | hat
    · rw [List.filter_cons_of_pos (by simp)]
      have htnil : t.filter (fun y => key y == key a) = [] := by
        rw [List.filter_eq_nil_iff]
        intro y hy hkey
        exact hnd.1 (List.mem_map.mpr ⟨y, hy, (beq_iff_eq.mp hkey).symm ▸ rfl⟩)
      rw [htnil]
    · have hne : key x ≠ key a := by
        intro hk
        exact hnd.1 (List.mem_map.mpr ⟨a, hat, hk.symm⟩)
      rw [List.filter_cons_of_neg (by simp [hne]), ih hnd.2 hat]

/-- Updating the single row carrying a member's key shifts a
contribution sum by that member's contribution change. -/
theorem sum_map_keyed_update {α : Type} [DecidableEq α] (key : α → Nat)
    (contrib : α → Int) (l : List α) (hnd : (l.map key).Nodup)
    {a : α} (ha : a ∈ l) (g : α → α)
    (hg : ∀ x, key x ≠ key a → g x = x) :
    ((l.map g).map contrib).sum =
      (l.map contrib).sum + (contrib (g a) - contrib a) := by
  rw [List.map_map]
  have hcount : l.count a = 1 :=
    List.count_eq_one_of_mem (List.Nodup.of_map key hnd) ha
  refine sum_map_update_single (contrib ∘ g) contrib a l hcount ?_
  intro x hx hxa
  have hk : key x ≠ key a := fun h => hxa (eq_of_key_eq key l hnd hx ha h)
  show contrib (g x) = contrib x
  rw [hg x hk]

/-- Appending one row adds its contribution. -/
theorem sum_map_append_one {α : Type} (contrib : α → Int) (l : List α)
    (a : α) :
    ((l ++ [a]).map contrib).sum = (l.map contrib).sum + contrib a := by
  simp

/-- Exit paths of `createReservation`: either the state is unchanged, or
the flight was found with enough seats, its counter was decremented and
the new pending reservation appended. -/
theorem createReservation_cases (fid : Nat) (bid : String) (s : Int)
    (nid : Nat) (now : Int) (db : DB) :
    (createReservation fid bid s nid now db).1 = db ∨
    (∃ flight, db.flights.find? (fun f => f.id == fid) = some flight ∧
      ¬ flight.available_seats < s ∧
      (createReservation fid bid s nid now db).1 =
        ⟨db.flights.map (fun f =>
            if f.id == fid then
              { f with available_seats := f.available_seats - s }
            else f),
          db.flight_reservations ++
            [⟨nid, fid, bid, s, .pending, some (now + holdWindowMs)⟩]⟩) := by
  unfold createReservation
  by_cases hbid : bid = ""
  · rw [if_pos hbid]; left; rfl
  · rw [if_neg hbid]
    cases hfind : db.flights.find? (fun f => f.id == fid) with
    | none => left; rfl
    | some flight =>
      by_cases hseats : flight.available_seats < s
      · left; simp [hseats]
      · right; exact ⟨flight, rfl, hseats, by simp [hseats]⟩

/-- The inductive invariant tying a reachable state `db` back to the
initial state `db0`: ledger ids are unique, quantities are positive,
every reservation's flight row exists, the flights table keeps its id
column, no seat counter is negative, and per flight the counter plus
the held (pending or confirmed) seats equals the initial counter. -/
def SagaInv (db0 db : DB) : Prop :=
  (db.flight_reservations.map (fun r => r.id)).Nodup ∧
  (∀ r ∈ db.flight_reservations, 0 < r.seats) ∧
  (∀ r ∈ db.flight_reservations,
    r.flight_id ∈ db.flights.map (fun f => f.id)) ∧
  (db.flights.map (fun f => f.id) = db0.flights.map (fun f => f.id)) ∧
  (∀ f ∈ db.flights, 0 ≤ f.available_seats) ∧
  (∀ fid : Nat, availSeats db fid + heldSeats db fid = availSeats db0 fid)

theorem inv_reserve (db0 db : DB)
    (hf0 : (db0.flights.map (fun f => f.id)).Nodup) (hinv : SagaInv db0 db)
    (fid : Nat) (bid : String) (s : Int) (nid : Nat) (now : Int)
    (hspos : 0 < s)
    (hfresh : nid ∉ db.flight_reservations.map (fun r => r.id)) :
    SagaInv db0 (createReservation fid bid s nid now db).1 := by
  obtain ⟨hA, hB, hC, hD, hE, hF⟩ := hinv
  have hndfl : (db.flights.map (fun f => f.id)).Nodup := by rw [hD]; exact hf0
  rcases createReservation_cases fid bid s nid now db with heq | ⟨flight, hfind, hseats, heq⟩
  · rw [heq]; exact ⟨hA, hB, hC, hD, hE, hF⟩
  · have hflmem : flight ∈ db.flights := List.mem_of_find?_eq_some hfind
    have hflid : flight.id = fid := by
      have h1 := List.find?_some hfind
      simpa using h1
    have hidmap : (db.flights.map (fun f =>
        if f.id == fid then
          { f with available_seats := f.available_seats - s }
        else f)).map (fun f => f.id) = db.flights.map (fun f => f.id) := by
      rw [List.map_map]
      apply List.map_congr_left
      intro f _
      by_cases h : f.id = fid <;> simp [Function.comp, h]
    have hfl : (createReservation fid bid s nid now db).1.flights =
        db.flights.map (fun f =>
          if f.id == fid then
            { f with available_seats := f.available_seats - s }
          else f) := by
      rw [heq]
    have hrs : (createReservation fid bid s nid now db).1.flight_reservations =
        db.flight_reservations ++
          [⟨nid, fid, bid, s, .pending, some (now + holdWindowMs)⟩] := by
      rw [heq]
    refine ⟨?_, ?_, ?_, ?_, ?_, ?_⟩
    · rw [hrs, List.map_append, List.map_singleton]
      exact (List.perm_append_singleton _ _).nodup_iff.mpr
        (List.nodup_cons.mpr ⟨hfresh, hA⟩)
    · intro r hr
      rw [hrs] at hr
      rcases List.mem_append.mp hr with h | h
      · exact hB r h
      · rcases List.mem_singleton.mp h with rfl
        exact hspos
    · intro r hr
      rw [hrs] at hr
      rw [hfl, hidmap]
      rcases List.mem_append.mp hr with h | h
      · exact hC r h
      · rcases List.mem_singleton.mp h with rfl
        exact hflid ▸ List.mem_map.mpr ⟨flight, hflmem, rfl⟩
    · rw [hfl, hidmap]
      exact hD
    · intro f hf
      rw [hfl, List.mem_map] at hf
      obtain ⟨x, hx, rfl⟩ := hf
      by_cases h : x.id = fid
      · have hxfl : x = flight :=
          eq_of_key_eq (fun f => f.id) db.flights hndfl hx hflmem
            (h.trans hflid.symm)
        subst hxfl
        simp [h]
        omega
      · simp [h]
        exact hE x hx
    · intro fid'
      have havail : availSeats (createReservation fid bid s nid now db).1 fid' =
          availSeats db fid' +
            (availContrib fid'
                (if flight.id == fid then
                  { flight with available_seats := flight.available_seats - s }
                else flight) -
              availContrib fid' flight) := by
        rw [availSeats_eq_sum, availSeats_eq_sum, hfl]
        exact sum_map_keyed_update (fun f => f.id) (availContrib fid')
          db.flights hndfl hflmem _
          (fun x hx => by
            have hne : ¬ (x.id = fid) := fun hh => hx (hh.trans hflid.symm)
            simp [hne])
      have hheld : heldSeats (createReservation fid bid s nid now db).1 fid' =
          heldSeats db fid' +
            heldContrib fid' ⟨nid, fid, bid, s, .pending,
              some (now + holdWindowMs)⟩ := by
        rw [heldSeats_eq_sum, heldSeats_eq_sum, hrs]
        exact sum_map_append_one _ _ _
      rw [havail, hheld]
      have hbal := hF fid'
      by_cases h : fid' = fid
      · subst h
        simp [availContrib, heldContrib, hflid]
        omega
      · have h1 : ¬ (flight.id = fid') := fun hh => h (hflid ▸ hh).symm
        have h2 : ¬ (fid = fid') := fun hh => h hh.symm
        simp [availContrib, heldContrib, hflid, h1, h2]
        omega

/-- Facts delivered by a successful `pending`-row lookup. -/
theorem find?_pending_facts (rid : Nat) (rs : List ReservationRow)
    (r0 : ReservationRow)
    (h : rs.find? (fun r =>
        r.id == rid && r.status == ResStatus.pending) = some r0) :
    r0 ∈ rs ∧ r0.id = rid ∧ r0.status = .pending := by
  have hmem := List.mem_of_find?_eq_some h
  have hp := List.find?_some h
  simp only [Bool.and_eq_true, beq_iff_eq] at hp
  exact ⟨hmem, hp.1, hp.2⟩

theorem inv_confirm (db0 db : DB) (hinv : SagaInv db0 db) (rid : Nat) :
    SagaInv db0 (confirmReservation rid db).1 := by
  obtain ⟨hA, hB, hC, hD, hE, hF⟩ := hinv
  cases hfind : db.flight_reservations.find? (fun r =>
      r.id == rid && r.status == ResStatus.pending) with
  | none =>
    have hid : (confirmReservation rid db).1 = db := by
      simp [confirmReservation, hfind]
    rw [hid]; exact ⟨hA, hB, hC, hD, hE, hF⟩
  | some r0 =>
    obtain ⟨hr0mem, hr0id, hr0st⟩ := find?_pending_facts rid _ r0 hfind
    have hfl : (confirmReservation rid db).1.flights = db.flights := by
      simp [confirmReservation, hfind]
    have hrs : (confirmReservation rid db).1.flight_reservations =
        db.flight_reservations.map (fun r =>
          if r.id == rid then
            { r with status := .confirmed, expires_at := none }
          else r) := by
      simp [confirmReservation, hfind]
    have hids : (confirmReservation rid db).1.flight_reservations.map
        (fun r => r.id) = db.flight_reservations.map (fun r => r.id) := by
      rw [hrs, List.map_map]
      apply List.map_congr_left
      intro r _
      by_cases h : r.id = rid <;> simp [Function.comp, h]
    refine ⟨?_, ?_, ?_, ?_, ?_, ?_⟩
    · rw [hids]; exact hA
    · intro r hr
      rw [hrs, List.mem_map] at hr
      obtain ⟨x, hx, rfl⟩ := hr
      by_cases h : x.id = rid
      · simp [h]; exact hB x hx
      · simp [h]; exact hB x hx
    · intro r hr
      rw [hrs, List.mem_map] at hr
      rw [hfl]
      obtain ⟨x, hx, rfl⟩ := hr
      by_cases h : x.id = rid
      · simp [h]; exact List.mem_map.mp (hC x hx)
      · simp [h]; exact List.mem_map.mp (hC x hx)
    · rw [hfl]; exact hD
    · intro f hf
      rw [hfl] at hf
      exact hE f hf
    · intro fid'
      have havail : availSeats (confirmReservation rid db).1 fid' =
          availSeats db fid' := by
        rw [availSeats_eq_sum, availSeats_eq_sum, hfl]
      have hheld : heldSeats (confirmReservation rid db).1 fid' =
          heldSeats db fid' := by
        rw [heldSeats_eq_sum, heldSeats_eq_sum, hrs, List.map_map]
        apply congrArg
        apply List.map_congr_left
        intro x hx
        by_cases h : x.id = rid
        · have hxr0 : x = r0 :=
            eq_of_key_eq (fun r => r.id) db.flight_reservations hA hx hr0mem
              (h.trans hr0id.symm)
          subst hxr0
          by_cases hm : x.flight_id = fid' <;>
            simp [Function.comp, heldContrib, h, hm, hr0st]
        · simp [Function.comp, h]
      rw [havail, hheld]
      exact hF fid'

theorem inv_cancel (db0 db : DB)
    (hf0 : (db0.flights.map (fun f => f.id)).Nodup) (hinv : SagaInv db0 db)
    (rid : Nat) : SagaInv db0 (cancelReservation rid db).1 := by
  obtain ⟨hA, hB, hC, hD, hE, hF⟩ := hinv
  have hndfl : (db.flights.map (fun f => f.id)).Nodup := by rw [hD]; exact hf0
  cases hfind : db.flight_reservations.find? (fun r =>
      r.id == rid && r.status == ResStatus.pending) with
  | none =>
    have hid : (cancelReservation rid db).1 = db := by
      simp [cancelReservation, hfind]
    rw [hid]; exact ⟨hA, hB, hC, hD, hE, hF⟩
  | some r0 =>
    obtain ⟨hr0mem, hr0id, hr0st⟩ := find?_pending_facts rid _ r0 hfind
    obtain ⟨f0, hf0mem, hf0id⟩ := List.mem_map.mp (hC r0 hr0mem)
    have hfl : (cancelReservation rid db).1.flights =
        db.flights.map (fun f =>
          if f.id == r0.flight_id then
            { f with available_seats := f.available_seats + r0.seats }
          else f) := by
      simp [cancelReservation, hfind]
    have hrs : (cancelReservation rid db).1.flight_reservations =
        db.flight_reservations.map (fun r =>
          if r.id == rid then { r with status := ResStatus.cancelled }
          else r) := by
      simp [cancelReservation, hfind]
    have hflids : (cancelReservation rid db).1.flights.map (fun f => f.id) =
        db.flights.map (fun f => f.id) := by
      rw [hfl, List.map_map]
      apply List.map_congr_left
      intro f _
      by_cases h : f.id = r0.flight_id <;> simp [Function.comp, h]
    have hrsids : (cancelReservation rid db).1.flight_reservations.map
        (fun r => r.id) = db.flight_reservations.map (fun r => r.id) := by
      rw [hrs, List.map_map]
      apply List.map_congr_left
      intro r _
      by_cases h : r.id = rid <;> simp [Function.comp, h]
    refine ⟨?_, ?_, ?_, ?_, ?_, ?_⟩
    · rw [hrsids]; exact hA
    · intro r hr
      rw [hrs, List.mem_map] at hr
      obtain ⟨x, hx, rfl⟩ := hr
      by_cases h : x.id = rid
      · simp [h]; exact hB x hx
      · simp [h]; exact hB x hx
    · intro r hr
      rw [hrs, List.mem_map] at hr
      rw [hflids]
      obtain ⟨x, hx, rfl⟩ := hr
      by_cases h : x.id = rid
      · simp [h]; exact List.mem_map.mp (hC x hx)
      · simp [h]; exact List.mem_map.mp (hC x hx)
    · rw [hflids]; exact hD
    · intro f hf
      rw [hfl, List.mem_map] at hf
      obtain ⟨x, hx, rfl⟩ := hf
      have hpos : 0 < r0.seats := hB r0 hr0mem
      have hxnn : 0 ≤ x.available_seats := hE x hx
      by_cases h : x.id = r0.flight_id
      · simp [h]; omega
      · simp [h]; exact hxnn
    · intro fid'
      have havail : availSeats (cancelReservation rid db).1 fid' =
          availSeats db fid' +
            (availContrib fid'
                (if f0.id == r0.flight_id then
                  { f0 with available_seats := f0.available_seats + r0.seats }
                else f0) -
              availContrib fid' f0) := by
        rw [availSeats_eq_sum, availSeats_eq_sum, hfl]
        exact sum_map_keyed_update (fun f => f.id) (availContrib fid')
          db.flights hndfl hf0mem _
          (fun x hx => by
            have hne : ¬ (x.id = r0.flight_id) :=
              fun hh => hx (hh.trans hf0id.symm)
            simp [hne])
      have hheld : heldSeats (cancelReservation rid db).1 fid' =
          heldSeats db fid' +
            (heldContrib fid'
                (if r0.id == rid then
                  ({ r0 with status := ResStatus.cancelled } : ReservationRow)
                else r0) -
              heldContrib fid' r0) := by
        rw [heldSeats_eq_sum, heldSeats_eq_sum, hrs]
        exact sum_map_keyed_update (fun r => r.id) (heldContrib fid')
          db.flight_reservations hA hr0mem _
          (fun x hx => by
            have hne : ¬ (x.id = rid) := fun hh => hx (hh.trans hr0id.symm)
            simp [hne])
      rw [havail, hheld]
      have hbal := hF fid'
      by_cases h : r0.flight_id = fid'
      · simp [availContrib, heldContrib, hf0id, hr0id, hr0st, h]
        omega
      · have h1 : ¬ (f0.id = fid') := fun hh => h (hf0id ▸ hh)
        simp [availContrib, heldContrib, hf0id, hr0id, hr0st, h, h1]
        omega

/-- Crediting every flight row by a per-id amount shifts the
contribution sum of `fid` by the amount for `fid` times the number of
rows with that id. -/
theorem availSum_credit_all (fl : List FlightRow) (C : Nat → Int) (fid : Nat) :
    ((fl.map (fun f =>
        { f with available_seats := f.available_seats + C f.id })).map
      (availContrib fid)).sum =
      (fl.map (availContrib fid)).sum +
        ((fl.filter (fun f => f.id == fid)).length : Int) * C fid := by
  rw [List.map_map]
  have hpt : ∀ f ∈ fl,
      (availContrib fid ∘ fun f =>
        { f with available_seats := f.available_seats + C f.id }) f =
      availContrib fid f + (if f.id == fid then C fid else 0) := by
    intro f _
    by_cases h : f.id = fid
    · simp [Function.comp, availContrib, h]
    · simp [Function.comp, availContrib, h]
  rw [List.map_congr_left hpt, sum_map_add, sum_map_if_const]

theorem inv_sweep (db0 db : DB)
    (hf0 : (db0.flights.map (fun f => f.id)).Nodup) (hinv : SagaInv db0 db)
    (now : Int) : SagaInv db0 (reservationCleanupTick now db) := by
  obtain ⟨hA, hB, hC, hD, hE, hF⟩ := hinv
  have hndfl : (db.flights.map (fun f => f.id)).Nodup := by rw [hD]; exact hf0
  have hfl : (reservationCleanupTick now db).flights =
      db.flights.map (fun f =>
        { f with available_seats := f.available_seats +
            creditTo (db.flight_reservations.filter (sweepPred now)) f.id }) := by
    rw [reservationCleanupTick_def, foldl_expireOne_flights]
  have hrs : (reservationCleanupTick now db).flight_reservations =
      db.flight_reservations.map (fun x =>
        if sweepPred now x then { x with status := ResStatus.expired }
        else x) := by
    rw [reservationCleanupTick_def, foldl_expireOne_reservations]
    apply List.map_congr_left
    intro x hx
    by_cases h : sweepPred now x = true
    · rw [if_pos ((mem_candIds_iff now db hA hx).mpr h), if_pos h]
    · rw [if_neg (fun hmem => h ((mem_candIds_iff now db hA hx).mp hmem)),
        if_neg h]
  have hcredit_nonneg : ∀ fidx : Nat,
      0 ≤ creditTo (db.flight_reservations.filter (sweepPred now)) fidx := by
    intro fidx
    unfold creditTo
    apply List.sum_nonneg
    intro v hv
    rw [List.mem_map] at hv
    obtain ⟨c, hc, rfl⟩ := hv
    have hcpos := hB c (List.mem_filter.mp hc).1
    by_cases h : c.flight_id = fidx
    · simp [h]; omega
    · simp [h]
  have hflids : (reservationCleanupTick now db).flights.map (fun f => f.id) =
      db.flights.map (fun f => f.id) := by
    rw [hfl, List.map_map]
    apply List.map_congr_left
    intro f _
    simp [Function.comp]
  have hrsids : (reservationCleanupTick now db).flight_reservations.map
      (fun r => r.id) = db.flight_reservations.map (fun r => r.id) := by
    rw [hrs, List.map_map]
    apply List.map_congr_left
    intro r _
    by_cases h : sweepPred now r = true <;> simp [Function.comp, h]
  refine ⟨?_, ?_, ?_, ?_, ?_, ?_⟩
  · rw [hrsids]; exact hA
  · intro r hr
    rw [hrs, List.mem_map] at hr
    obtain ⟨x, hx, rfl⟩ := hr
    by_cases h : sweepPred now x = true
    · simp [h]; exact hB x hx
    · simp [h]; exact hB x hx
  · intro r hr
    rw [hrs, List.mem_map] at hr
    rw [hflids]
    obtain ⟨x, hx, rfl⟩ := hr
    by_cases h : sweepPred now x = true
    · simp [h]; exact List.mem_map.mp (hC x hx)
    · simp [h]; exact List.mem_map.mp (hC x hx)
  · rw [hflids]; exact hD
  · intro f hf
    rw [hfl, List.mem_map] at hf
    obtain ⟨x, hx, rfl⟩ := hf
    have h1 := hE x hx
    have h2 := hcredit_nonneg x.id
    show 0 ≤ x.available_seats +
      creditTo (db.flight_reservations.filter (sweepPred now)) x.id
    omega
  · intro fid'
    have havail : availSeats (reservationCleanupTick now db) fid' =
        availSeats db fid' +
          ((db.flights.filter (fun f => f.id == fid')).length : Int) *
            creditTo (db.flight_reservations.filter (sweepPred now)) fid' := by
      rw [availSeats_eq_sum, availSeats_eq_sum, hfl]
      exact availSum_credit_all db.flights _ fid'
    have hheld : heldSeats (reservationCleanupTick now db) fid' =
        heldSeats db fid' -
          ((db.flight_reservations.filter (fun r =>
              sweepPred now r && r.flight_id == fid')).map
            (fun r => r.seats)).sum := by
      rw [heldSeats_eq_sum, heldSeats_eq_sum, hrs, List.map_map]
      have hpt : ∀ r ∈ db.flight_reservations,
          (heldContrib fid' ∘ fun x =>
            if sweepPred now x then { x with status := ResStatus.expired }
            else x) r =
          heldContrib fid' r -
            (if sweepPred now r && r.flight_id == fid' then r.seats else 0) := by
        intro r _
        by_cases hp : sweepPred now r = true
        · have hpend : r.status = ResStatus.pending := by
            have hh := hp
            simp only [sweepPred, Bool.and_eq_true, beq_iff_eq] at hh
            exact hh.1
          by_cases hm : r.flight_id = fid' <;>
            simp [Function.comp, heldContrib, hp, hpend, hm]
        · simp [Function.comp, heldContrib, hp]
      rw [List.map_congr_left hpt, sum_map_sub, ← sum_filter_map]
    have hcredit : creditTo (db.flight_reservations.filter (sweepPred now))
        fid' =
        ((db.flight_reservations.filter (fun r =>
            sweepPred now r && r.flight_id == fid')).map
          (fun r => r.seats)).sum := by
      unfold creditTo
      exact sum_filter_map_if (sweepPred now) (fun r => r.flight_id == fid')
        (fun r => r.seats) db.flight_reservations
    have hbal := hF fid'
    by_cases hpres : fid' ∈ db.flights.map (fun f => f.id)
    · obtain ⟨f0, hf0mem, hf0id⟩ := List.mem_map.mp hpres
      have hfilter : db.flights.filter (fun f => f.id == fid') = [f0] := by
        have hsing := filter_key_singleton (fun f => f.id) db.flights hndfl
          hf0mem
        simp only [hf0id] at hsing
        exact hsing
      rw [havail, hheld, hfilter, hcredit]
      simp
      omega
    · have hfilternil : db.flights.filter (fun f => f.id == fid') = [] := by
        rw [List.filter_eq_nil_iff]
        intro f hf hbeq
        exact hpres (List.mem_map.mpr ⟨f, hf, beq_iff_eq.mp hbeq⟩)
      have hz : db.flight_reservations.filter (fun r =>
          sweepPred now r && r.flight_id == fid') = [] := by
        rw [List.filter_eq_nil_iff]
        intro r hr hb
        rw [Bool.and_eq_true] at hb
        exact hpres ((beq_iff_eq.mp hb.2) ▸ hC r hr)
      rw [havail, hheld, hfilternil, hz]
      simp
      omega

/-! ## Serialized histories preserve the invariant -/

/-- The uuid a Reserve call would insert. -/
def nidOf : SagaOp → Option Nat
  | .reserve _ _ _ nid _ => some nid
  | _ => none

/-- The claim's positivity restriction: every Reserve in the history
asks for a positive quantity. -/
def SeatsPos : SagaOp → Prop
  | .reserve _ _ s _ _ => 0 < s
  | _ => True

instance : DecidablePred SeatsPos := fun op =>
  match op with
  | .reserve _ _ s _ _ => inferInstanceAs (Decidable (0 < s))
  | .confirm _ => inferInstanceAs (Decidable True)
  | .cancel _ => inferInstanceAs (Decidable True)
  | .sweep _ => inferInstanceAs (Decidable True)

/-- The uuids the Reserve calls of a history would insert; uuidv4
freshness is the hypothesis that this list has no duplicates. -/
def reservedIds : List SagaOp → List Nat
  | [] => []
  | op :: ops =>
    match nidOf op with
    | some n => n :: reservedIds ops
    | none => reservedIds ops

theorem reservedIds_cons (op : SagaOp) (ops : List SagaOp) :
    reservedIds (op :: ops) =
      match nidOf op with
      | some n => n :: reservedIds ops
      | none => reservedIds ops := rfl

theorem reservedIds_append (l1 l2 : List SagaOp) :
    reservedIds (l1 ++ l2) = reservedIds l1 ++ reservedIds l2 := by
  induction l1 with
  | nil => rfl
  | cons op t ih =>
    rw [List.cons_append, reservedIds_cons, reservedIds_cons]
    cases hop : nidOf op <;> simp [ih]

theorem confirmReservation_ids (rid : Nat) (db : DB) :
    (confirmReservation rid db).1.flight_reservations.map (fun r => r.id) =
      db.flight_reservations.map (fun r => r.id) := by
  cases hfind : db.flight_reservations.find? (fun r =>
      r.id == rid && r.status == ResStatus.pending) with
  | none => simp [confirmReservation, hfind]
  | some r0 =>
    have hrs : (confirmReservation rid db).1.flight_reservations =
        db.flight_reservations.map (fun r =>
          if r.id == rid then
            { r with status := .confirmed, expires_at := none }
          else r) := by
      simp [confirmReservation, hfind]
    rw [hrs, List.map_map]
    apply List.map_congr_left
    intro r _
    by_cases h : r.id = rid <;> simp [Function.comp, h]

theorem cancelReservation_ids (rid : Nat) (db : DB) :
    (cancelReservation rid db).1.flight_reservations.map (fun r => r.id) =
      db.flight_reservations.map (fun r => r.id) := by
  cases hfind : db.flight_reservations.find? (fun r =>
      r.id == rid && r.status == ResStatus.pending) with
  | none => simp [cancelReservation, hfind]
  | some r0 =>
    have hrs : (cancelReservation rid db).1.flight_reservations =
        db.flight_reservations.map (fun r =>
          if r.id == rid then { r with status := ResStatus.cancelled }
          else r) := by
      simp [cancelReservation, hfind]
    rw [hrs, List.map_map]
    apply List.map_congr_left
    intro r _
    by_cases h : r.id = rid <;> simp [Function.comp, h]

theorem reservationCleanupTick_ids (now : Int) (db : DB) :
    (reservationCleanupTick now db).flight_reservations.map (fun r => r.id) =
      db.flight_reservations.map (fun r => r.id) := by
  rw [reservationCleanupTick_def, foldl_expireOne_reservations, List.map_map]
  apply List.map_congr_left
  intro r _
  by_cases h : r.id ∈ (db.flight_reservations.filter (sweepPred now)).map
      (fun c => c.id) <;> simp [Function.comp, h]

/-- Any id present after one transaction was present before, unless the
transaction was the Reserve that inserted it. -/
theorem applyOp_ids (db : DB) (op : SagaOp) (n : Nat)
    (hn : n ∈ (applyOp db op).flight_reservations.map (fun r => r.id)) :
    n ∈ db.flight_reservations.map (fun r => r.id) ∨ nidOf op = some n := by
  cases op with
  | reserve fid bid s nid now =>
    rcases createReservation_cases fid bid s nid now db with
      heq | ⟨flight, _, _, heq⟩
    · rw [show applyOp db (.reserve fid bid s nid now) =
          (createReservation fid bid s nid now db).1 from rfl, heq] at hn
      exact Or.inl hn
    · have hres : (createReservation fid bid s nid now db).1.flight_reservations =
          db.flight_reservations ++
            [⟨nid, fid, bid, s, .pending, some (now + holdWindowMs)⟩] := by
        rw [heq]
      rw [show applyOp db (.reserve fid bid s nid now) =
          (createReservation fid bid s nid now db).1 from rfl,
        hres, List.map_append, List.map_singleton] at hn
      rcases List.mem_append.mp hn with h | h
      · exact Or.inl h
      · right
        rw [List.mem_singleton] at h
        rw [h]
        rfl
  | confirm rid =>
    rw [show applyOp db (.confirm rid) = (confirmReservation rid db).1 from rfl,
      confirmReservation_ids] at hn
    exact Or.inl hn
  | cancel rid =>
    rw [show applyOp db (.cancel rid) = (cancelReservation rid db).1 from rfl,
      cancelReservation_ids] at hn
    exact Or.inl hn
  | sweep now =>
    rw [show applyOp db (.sweep now) = reservationCleanupTick now db from rfl,
      reservationCleanupTick_ids] at hn
    exact Or.inl hn

theorem runOps_inv (db0 : DB)
    (hf0 : (db0.flights.map (fun f => f.id)).Nodup) :
    ∀ (ops : List SagaOp) (db : DB), SagaInv db0 db →
      (∀ op ∈ ops, SeatsPos op) → (reservedIds ops).Nodup →
      (∀ n ∈ reservedIds ops,
        n ∉ db.flight_reservations.map (fun r => r.id)) →
      SagaInv db0 (runOps db ops) := by
  intro ops
  induction ops with
  | nil => intro db hinv _ _ _; exact hinv
  | cons op ops ih =>
    intro db hinv hpos hnd hfresh
    rw [show runOps db (op :: ops) = runOps (applyOp db op) ops from rfl]
    have hinv' : SagaInv db0 (applyOp db op) := by
      cases op with
      | reserve fid bid s nid now =>
        have hs : 0 < s := hpos _ (List.mem_cons_self _ _)
        have hfm : nid ∈ reservedIds (SagaOp.reserve fid bid s nid now :: ops) := by
          show nid ∈ nid :: reservedIds ops
          exact List.mem_cons_self _ _
        exact inv_reserve db0 db hf0 hinv fid bid s nid now hs (hfresh nid hfm)
      | confirm rid => exact inv_confirm db0 db hinv rid
      | cancel rid => exact inv_cancel db0 db hf0 hinv rid
      | sweep now => exact inv_sweep db0 db hf0 hinv now
    have hnd' : (reservedIds ops).Nodup := by
      cases hop : nidOf op with
      | none => rw [reservedIds_cons, hop] at hnd; exact hnd
      | some m =>
        rw [reservedIds_cons, hop] at hnd
        exact (List.nodup_cons.mp hnd).2
    have hfresh' : ∀ n ∈ reservedIds ops,
        n ∉ (applyOp db op).flight_reservations.map (fun r => r.id) := by
      intro n hn hmem
      rcases applyOp_ids db op n hmem with h | h
      · have hncons : n ∈ reservedIds (op :: ops) := by
          rw [reservedIds_cons]
          cases hop : nidOf op
          · exact hn
          · exact List.mem_cons_of_mem _ hn
        exact hfresh n hncons h
      · rw [reservedIds_cons, h] at hnd
        exact (List.nodup_cons.mp hnd).1 hn
    exact ih (applyOp db op) hinv'
      (fun o ho => hpos o (List.mem_cons_of_mem _ ho)) hnd' hfresh'

/-- C1: no oversell.  Starting from a fresh inventory (distinct flight
ids, non-negative counters, empty ledger), after any prefix of any
serialized history of Reserve / Confirm / Cancel / sweep transactions
whose Reserve quantities are positive and whose generated uuids are
fresh, no flight's `available_seats` is negative, and the seats held by
the pending and confirmed reservations of a flight never exceed that
flight's initial capacity. -/
theorem no_oversell (db0 : DB) (ops : List SagaOp)
    (h0 : db0.flight_reservations = [])
    (hf0 : (db0.flights.map (fun f => f.id)).Nodup)
    (hcap : ∀ f ∈ db0.flights, 0 ≤ f.available_seats)
    (hpos : ∀ op ∈ ops, SeatsPos op)
    (hids : (reservedIds ops).Nodup)
    (ops₁ ops₂ : List SagaOp) (hsplit : ops = ops₁ ++ ops₂) :
    (∀ f ∈ (runOps db0 ops₁).flights, 0 ≤ f.available_seats) ∧
    (∀ f0 ∈ db0.flights,
      heldSeats (runOps db0 ops₁) f0.id ≤ f0.available_seats) := by
  subst hsplit
  have hpos1 : ∀ op ∈ ops₁, SeatsPos op :=
    fun op h => hpos op (List.mem_append_left _ h)
  have hids1 : (reservedIds ops₁).Nodup := by
    rw [reservedIds_append] at hids
    exact hids.of_append_left
  have hinv0 : SagaInv db0 db0 := by
    refine ⟨?_, ?_, ?_, rfl, hcap, ?_⟩
    · rw [h0]; exact List.nodup_nil
    · intro r hr; rw [h0] at hr; cases hr
    · intro r hr; rw [h0] at hr; cases hr
    · intro fid
      have hheld0 : heldSeats db0 fid = 0 := by
        rw [heldSeats_eq_sum, h0]; rfl
      rw [hheld0]; ring
  have hfresh0 : ∀ n ∈ reservedIds ops₁,
      n ∉ db0.flight_reservations.map (fun r => r.id) := by
    intro n _ hmem
    rw [h0] at hmem
    simp at hmem
  obtain ⟨hA, hB, hC, hD, hE, hF⟩ :=
    runOps_inv db0 hf0 ops₁ db0 hinv0 hpos1 hids1 hfresh0
  refine ⟨hE, ?_⟩
  intro f0 hf0mem
  have hbal := hF f0.id
  have havail0 : availSeats db0 f0.id = f0.available_seats := by
    unfold availSeats
    rw [filter_key_singleton (fun f => f.id) db0.flights hf0 hf0mem]
    simp
  have hnn : 0 ≤ availSeats (runOps db0 ops₁) f0.id := by
    rw [availSeats_eq_sum]
    apply List.sum_nonneg
    intro v hv
    rw [List.mem_map] at hv
    obtain ⟨f, hfm, rfl⟩ := hv
    have hfnn := hE f hfm
    unfold availContrib
    by_cases h : f.id = f0.id
    · simp [h]; omega
    · simp [h]
  rw [havail0] at hbal
  omega

/-- Concrete initial state backing `no_oversell`. -/
def oversellDb0 : DB := ⟨[⟨1, 2⟩], []⟩

/-- Concrete history backing `no_oversell`. -/
def oversellOps : List SagaOp :=
  [.reserve 1 "A" 2 100 0, .reserve 1 "B" 1 101 0, .cancel 100, .sweep 9999]

/-- Witness for `no_oversell` at a concrete input. -/
theorem no_oversell_witness :
    heldSeats (runOps oversellDb0 oversellOps) 1 ≤ 2 := by
  have h := no_oversell oversellDb0 oversellOps rfl (by decide) (by decide)
    (by decide) (by decide) oversellOps [] (by simp)
  exact h.2 ⟨1, 2⟩ (by decide)
